import Mathlib

/-!
# Verification of `ml-engine/network_graph_analyzer.py`

A shallow embedding of the network behavior graph analyzer
(`NetworkGraphAnalyzer`) and proofs about the claims of its specification.

Modelling conventions:
* Python floats are modelled as exact rationals (`ℚ`).  All constants of the
  source (`0.25`, `0.75`, `0.55`, `0.85`, ...) are exactly representable in
  binary floating point, so the rational model agrees with the float code on
  the inputs used here.  `round(x, d)` on floats is modelled as exact
  round-half-to-even at `d` decimal digits; the values appearing in the
  theorems below are never representation-sensitive halfway cases.
* `pd.Timestamp` values are modelled as integer seconds.  A missing or
  unparseable timestamp (`NaT`, filled with `pd.Timestamp.now`) is modelled
  by `Option ℤ` together with an explicit `now : ℤ` argument.
* A pandas `DataFrame` is modelled as a `List Event`.  A column is present
  exactly when some record supplies a value for it; a record of the batch
  lacking a value of a present column holds a missing value (`none`).
* `nx.DiGraph` keeps nodes and adjacency in insertion order; it is modelled
  as association lists in insertion order with unique keys, matching
  `networkx` iteration order.  Python `dict` is modelled the same way.
-/

/- The rational operations are `@[irreducible]` in the library, which keeps
concrete runs of the model from reducing; restore reducibility so that the
evaluation theorems below go through by `decide`. -/
set_option allowUnsafeReducibility true in
attribute [semireducible] Rat.add Rat.mul Rat.inv Rat.sub Rat.ofScientific

set_option maxRecDepth 100000

set_option maxHeartbeats 4000000

/-- Python `round` to an integer: round half to even, as used by `round(x)`
and (per digit position) by `round(x, d)`. -/
def roundHalfEven (q : ℚ) : ℤ :=
  let n := ⌊q⌋
  let frac := q - (n : ℚ)
  if frac < 1/2 then n
  else if 1/2 < frac then n + 1
  else if n % 2 = 0 then n else n + 1

/-- Python `round(x, d)` for nonnegative `d`, on the exact rational model. -/
def pyRound (d : ℕ) (q : ℚ) : ℚ :=
  ((roundHalfEven (q * (10 : ℚ) ^ d) : ℚ)) / (10 : ℚ) ^ d

/-- Python `int(x)` on a float: truncation toward zero. -/
def pyInt (q : ℚ) : ℤ := if q < 0 then ⌈q⌉ else ⌊q⌋

/-- A whitespace character, as Python `str.strip` removes. -/
def isSpaceChar (c : Char) : Bool :=
  c = ' ' ∨ c = '\t' ∨ c = '\n' ∨ c = '\r'

/-- Python `str.strip()`: drop leading and trailing whitespace.  (Implemented
structurally over the character list so that concrete runs reduce.) -/
def pyStrip (s : String) : String :=
  ⟨((s.data.dropWhile isSpaceChar).reverse.dropWhile isSpaceChar).reverse⟩

/-- ASCII lower-casing of one character (`str.lower` on the identifiers and
labels appearing here). -/
def lowerChar (c : Char) : Char :=
  if 'A' ≤ c ∧ c ≤ 'Z' then Char.ofNat (c.toNat + 32) else c

/-- Python `str.lower()` (ASCII range, which covers the labels compared
against). -/
def pyLower (s : String) : String := ⟨s.data.map lowerChar⟩

/-- One telemetry record, after the parsing done by `_safe_num` / `_to_dt`
(numeric parse failures already replaced by the default `0`).  `none` in
`timestamp` models a missing or unparseable timestamp; `none` in
`comm_target` models a record that does not carry the optional explicit
communication target; `none` in the anomaly fields models a missing value. -/
structure Event where
  device_id : String := ""
  device_type : String := "unknown"
  timestamp : Option ℤ := none
  cpu_usage : ℚ := 0
  memory_usage : ℚ := 0
  network_in_kb : ℚ := 0
  network_out_kb : ℚ := 0
  packet_rate : ℚ := 0
  comm_target : Option String := none
  is_anomalous : Option Bool := none
  is_anomaly : Option Bool := none
  label : String := ""
  attack_label : String := ""
deriving DecidableEq, Repr

/-- `_is_anomalous_label`: resolve the anomaly flag of one record, in the
priority order of the source (explicit boolean fields, then the categorical
`label`, then the categorical `attack_label`). -/
def isAnomalousLabel (e : Event) : Bool :=
  match e.is_anomalous with
  | some b => b
  | none =>
  match e.is_anomaly with
  | some b => b
  | none =>
    let lbl := pyLower (pyStrip e.label)
    if lbl = "anomaly" ∨ lbl = "anomalous" ∨ lbl = "attack" ∨ lbl = "malicious" then true
    else if lbl = "normal" ∨ lbl = "ok" ∨ lbl = "benign" then false
    else
      let a := pyLower (pyStrip e.attack_label)
      if a ≠ "" ∧ a ≠ "normal" then true else false

/-- Attributes stored on a graph node (`G.add_node` keyword arguments). -/
structure NodeAttrs where
  device_type : String
  is_anomalous : Bool
  avg_cpu : ℚ
  avg_memory : ℚ
  total_traffic : ℤ
  last_seen : ℤ
deriving DecidableEq, Repr

/-- Attributes stored on a graph edge.  `etype` is the `type` attribute of
the source (`"explicit" | "inferred" | "c2" | "lateral"`). -/
structure EdgeAttrs where
  weight : ℚ
  count : ℤ
  total_packets : ℤ
  total_out_kb : ℤ
  last_seen : ℤ
  etype : String
deriving DecidableEq, Repr

/-- The `EdgeAgg` dataclass. -/
structure EdgeAgg where
  count : ℤ := 0
  total_packets : ℤ := 0
  total_out_kb : ℤ := 0
  total_in_kb : ℤ := 0
  last_seen : Option ℤ := none
  edge_type : String := "inferred"
deriving DecidableEq, Repr

/-- Look a key up in an association list (Python `dict.get` / `in`). -/
def lookupKey {α β : Type} [DecidableEq α] (k : α) : List (α × β) → Option β
  | [] => none
  | p :: rest => if p.1 = k then some p.2 else lookupKey k rest

/-- Update a key in an association list, preserving its position, or append
it at the end (Python `dict.__setitem__` insertion-order semantics). -/
def setKey {α β : Type} [DecidableEq α] (k : α) (v : β) : List (α × β) → List (α × β)
  | [] => [(k, v)]
  | p :: rest => if p.1 = k then (k, v) :: rest else p :: setKey k v rest

/-- First-occurrence deduplication: the loop `if x not in seen: keep x`. -/
def dedupAux {α : Type} [DecidableEq α] : List α → List α → List α
  | [], _ => []
  | x :: xs, seen => if x ∈ seen then dedupAux xs seen else x :: dedupAux xs (x :: seen)

def dedupFirst {α : Type} [DecidableEq α] (l : List α) : List α := dedupAux l []

/-- Insert into an ascending list of strings, after existing equal or smaller
elements (a stable insertion step, modelling Python `sorted`). -/
def insertAsc (x : String) : List String → List String
  | [] => [x]
  | y :: ys => if y ≤ x then y :: insertAsc x ys else x :: y :: ys

def sortAsc (l : List String) : List String := l.foldl (fun acc x => insertAsc x acc) []

/-- Python `sorted(list(someSet))`: the ascending list of the distinct
elements (independent of the set's internal iteration order). -/
def dedupSortStrings (l : List String) : List String := sortAsc (dedupFirst l)

/-- The directed graph: nodes and aggregated directed edges, both kept in
insertion order with unique keys (the `networkx.DiGraph` of the source). -/
structure Graph where
  nodes : List (String × NodeAttrs)
  edges : List ((String × String) × EdgeAttrs)
deriving DecidableEq, Repr

def Graph.empty : Graph := ⟨[], []⟩

def Graph.findNode (G : Graph) (n : String) : Option NodeAttrs := lookupKey n G.nodes

def Graph.hasNode (G : Graph) (n : String) : Bool := (G.findNode n).isSome

def Graph.findEdge (G : Graph) (k : String × String) : Option EdgeAttrs := lookupKey k G.edges

/-- `G.has_edge(u, v)`. -/
def Graph.hasEdge (G : Graph) (u v : String) : Bool := (G.findEdge (u, v)).isSome

/-- `self.graph[u][v]["type"] = t`: overwrite the `type` attribute of an
existing edge in place. -/
def Graph.setEdgeType (G : Graph) (u v : String) (t : String) : Graph :=
  { G with edges := G.edges.map (fun p => if p.1 = (u, v) then (p.1, { p.2 with etype := t }) else p) }

/-- `G.out_degree(n)`: the number of edges leaving `n`. -/
def Graph.outDegree (G : Graph) (n : String) : ℕ :=
  (G.edges.filter (fun p => p.1.1 = n)).length

/-- `G.in_degree(n)`: the number of edges entering `n`. -/
def Graph.inDegree (G : Graph) (n : String) : ℕ :=
  (G.edges.filter (fun p => p.1.2 = n)).length

/-- `G.successors(n)` in adjacency (insertion) order. -/
def Graph.successors (G : Graph) (n : String) : List String :=
  (G.edges.filter (fun p => p.1.1 = n)).map (fun p => p.1.2)

/-- The analyzer configuration (`NetworkGraphAnalyzer.__init__` parameters,
with the source's default values). -/
structure Config where
  use_comm_target : Bool := true
  inference_enabled : Bool := true
  inference_time_window_sec : ℤ := 30
  inference_threshold : ℚ := 11/20
deriving DecidableEq, Repr

def cfgDefault : Config := {}

/-- The mutable `self.edge_agg` dictionary of the analyzer instance. -/
def AggState : Type := List ((String × String) × EdgeAgg)

/-- `_calculate_communication_likelihood(device1, device2)`. -/
def likelihood (d1 d2 : Event) : ℚ :=
  let net_out1 := d1.network_out_kb
  let net_in2 := d2.network_in_kb
  if net_out1 < 250 ∨ net_in2 < 250 then 0
  else
    let similarity := min net_out1 net_in2 / max net_out1 net_in2
    let pkt_boost := min ((d1.packet_rate + d2.packet_rate) / 2000) 1
    (3/4) * similarity + (1/4) * pkt_boost

/-- `_add_or_update_edge(G, src, dst, row, edge_type, weight)`.  `ts` is the
row's (normalized) timestamp. -/
def addOrUpdateEdge (st : AggState) (G : Graph) (src dst : String) (e : Event) (ts : ℤ)
    (edge_type : String) (weight : ℚ) : AggState × Graph :=
  let pkt := pyInt e.packet_rate
  let out_kb := pyInt e.network_out_kb
  let in_kb := pyInt e.network_in_kb
  let key := (src, dst)
  let agg0 := (lookupKey key st).getD { edge_type := edge_type }
  let last := match agg0.last_seen with
    | none => ts
    | some l => max l ts
  let agg : EdgeAgg :=
    { count := agg0.count + 1
      total_packets := agg0.total_packets + pkt
      total_out_kb := agg0.total_out_kb + out_kb
      total_in_kb := agg0.total_in_kb + in_kb
      last_seen := some last
      edge_type := edge_type }
  let st1 := setKey key agg st
  let attrs : EdgeAttrs :=
    { weight := weight
      count := agg.count
      total_packets := agg.total_packets
      total_out_kb := agg.total_out_kb
      last_seen := last
      etype := agg.edge_type }
  let G1 :=
    match G.findEdge key with
    | some old => { G with edges := setKey key ({ attrs with weight := max old.weight weight }) G.edges }
    | none => { G with edges := G.edges ++ [(key, attrs)] }
  (st1, G1)

/-- The node upsert of `build_communication_graph`: create a node on first
sight, otherwise OR the anomaly flag, two-point-average cpu/memory,
accumulate traffic and advance `last_seen`. -/
def upsertNode (G : Graph) (e : Event) (ts : ℤ) : Graph :=
  let id := pyStrip e.device_id
  if id = "" then G
  else
    match G.findNode id with
    | none =>
        let a : NodeAttrs :=
          { device_type := e.device_type
            is_anomalous := isAnomalousLabel e
            avg_cpu := e.cpu_usage
            avg_memory := e.memory_usage
            total_traffic := pyInt (e.network_in_kb + e.network_out_kb)
            last_seen := ts }
        { G with nodes := G.nodes ++ [(id, a)] }
    | some n =>
        let a : NodeAttrs :=
          { n with
            is_anomalous := n.is_anomalous || isAnomalousLabel e
            avg_cpu := (n.avg_cpu + e.cpu_usage) / 2
            avg_memory := (n.avg_memory + e.memory_usage) / 2
            total_traffic := pyInt ((n.total_traffic : ℚ) + e.network_in_kb + e.network_out_kb)
            last_seen := max n.last_seen ts }
        { G with nodes := setKey id a G.nodes }

/-- One step of the explicit edge pass: events carrying a `comm_target`
produce an explicit directed edge; a missing value of a present column is
pandas `NaN`, whose string form is `"nan"`. -/
def explicitStep (s : AggState × Graph) (r : Event × ℤ) : AggState × Graph :=
  let (st, G) := s
  let e := r.1
  let src := pyStrip e.device_id
  let dst := match e.comm_target with
    | none => "nan"
    | some d => pyStrip d
  if src = "" ∨ dst = "" ∨ src = dst then (st, G)
  else
    let defaultDst : NodeAttrs :=
      { device_type := "unknown", is_anomalous := false, avg_cpu := 0, avg_memory := 0,
        total_traffic := 0, last_seen := r.2 }
    let G1 :=
      if G.hasNode dst then G
      else { G with nodes := G.nodes ++ [(dst, defaultDst)] }
    addOrUpdateEdge st G1 src dst e r.2 "explicit" 1

/-- The explicit edge pass, guarded by `use_comm_target` and by the presence
of the `comm_target` column in the frame. -/
def explicitPass (cfg : Config) (st : AggState) (G : Graph) (rows : List (Event × ℤ)) :
    AggState × Graph :=
  if cfg.use_comm_target ∧ rows.any (fun r => r.1.comm_target.isSome) then
    rows.foldl explicitStep (st, G)
  else (st, G)

/-- The body run for one close-in-time ordered pair of the inference pass:
score both directions and add an inferred edge for each direction whose
score reaches the threshold. -/
def inferPair (cfg : Config) (s : AggState × Graph) (r1 r2 : Event × ℤ) : AggState × Graph :=
  let s1 := r1.1.device_id
  let s2 := r2.1.device_id
  if s1 = "" ∨ s2 = "" ∨ s1 = s2 then s
  else
    let score12 := likelihood r1.1 r2.1
    let s' :=
      if cfg.inference_threshold ≤ score12 then
        addOrUpdateEdge s.1 s.2 s1 s2 r1.1 r1.2 "inferred" score12
      else s
    let score21 := likelihood r2.1 r1.1
    if cfg.inference_threshold ≤ score21 then
      addOrUpdateEdge s'.1 s'.2 s2 s1 r2.1 r2.2 "inferred" score21
    else s'

/-- The inner loop of the inference pass over the events following `r1` in
timestamp order, with the early `break` once the time window is exceeded. -/
def inferInner (cfg : Config) (r1 : Event × ℤ) : List (Event × ℤ) → AggState × Graph → AggState × Graph
  | [], s => s
  | r2 :: rest, s =>
    if cfg.inference_time_window_sec < r2.2 - r1.2 then s
    else inferInner cfg r1 rest (inferPair cfg s r1 r2)

def inferOuter (cfg : Config) : List (Event × ℤ) → AggState × Graph → AggState × Graph
  | [], s => s
  | r1 :: rest, s => inferOuter cfg rest (inferInner cfg r1 rest s)

/-- Stable insertion by timestamp (`df.sort_values("timestamp")`; on the
batches considered here — distinct keys or identical rows — every sorting
algorithm produces this result). -/
def insertByTs (r : Event × ℤ) : List (Event × ℤ) → List (Event × ℤ)
  | [] => [r]
  | x :: xs => if x.2 ≤ r.2 then x :: insertByTs r xs else r :: x :: xs

def sortByTs (rows : List (Event × ℤ)) : List (Event × ℤ) :=
  rows.foldl (fun acc r => insertByTs r acc) []

/-- The inference pass (`if self.inference_enabled:` block). -/
def inferencePass (cfg : Config) (st : AggState) (G : Graph) (rows : List (Event × ℤ)) :
    AggState × Graph :=
  if cfg.inference_enabled then inferOuter cfg (sortByTs rows) (st, G)
  else (st, G)

/-- `build_communication_graph(telemetry_data)`: normalize timestamps, build
nodes, run the explicit pass then the inference pass.  The returned
`AggState` is the analyzer's `self.edge_agg` after the call (the source
never resets it). -/
def build_communication_graph (cfg : Config) (st : AggState) (now : ℤ) (batch : List Event) :
    Graph × AggState :=
  let rows : List (Event × ℤ) := batch.map (fun e => (e, e.timestamp.getD now))
  let G0 := rows.foldl (fun g r => upsertNode g r.1 r.2) Graph.empty
  let (st1, G1) := explicitPass cfg st G0 rows
  let (st2, G2) := inferencePass cfg st1 G1 rows
  (G2, st2)

/-- One `c2_candidates` record. -/
structure C2Record where
  device_id : String
  out_connections : ℕ
  in_connections : ℕ
  c2_score : ℚ
deriving DecidableEq, Repr

/-- The result dictionary of `detect_botnet_patterns`. -/
structure BotnetResult where
  botnet_detected : Bool
  c2_candidates : List C2Record
  recruited_devices : List String
  confidence : ℚ
deriving DecidableEq, Repr

def emptyBotnetResult : BotnetResult := ⟨false, [], [], 0⟩

/-- The candidate test of `detect_botnet_patterns`:
`out_ >= max(3, int(0.25 * N)) and (out_ / (in_ + 1)) > 2.0`. -/
def c2CandidateCond (G : Graph) (n : String) : Prop :=
  (G.outDegree n : ℤ) ≥ max 3 (pyInt ((1/4 : ℚ) * (G.nodes.length : ℚ)))
    ∧ ((G.outDegree n : ℚ) / ((G.inDegree n : ℚ) + 1) > 2)

instance (G : Graph) (n : String) : Decidable (c2CandidateCond G n) := by
  unfold c2CandidateCond; infer_instance

/-- The `c2_candidates` accumulation loop of `detect_botnet_patterns`: one
record per node passing the candidate test, in node order, with the score
`round(out_ / max(N, 1), 3)`. -/
def c2Candidates (G : Graph) : List C2Record :=
  G.nodes.filterMap (fun p =>
    if c2CandidateCond G p.1 then
      some ⟨p.1, G.outDegree p.1, G.inDegree p.1,
        pyRound 3 ((G.outDegree p.1 : ℚ) / (max G.nodes.length 1 : ℚ))⟩
    else none)

/-- `detect_botnet_patterns`: collect hub-like candidate nodes; when any
exist, compute the recruited set, relabel every candidate→successor edge to
`"c2"` in `self.graph`, and set the fixed confidence.  Returns the result
together with the (possibly mutated) graph. -/
def detect_botnet_patterns (G : Graph) : BotnetResult × Graph :=
  if G.nodes.length < 4 then (emptyBotnetResult, G)
  else
    let cands : List C2Record := c2Candidates G
    if cands.isEmpty then (emptyBotnetResult, G)
    else
      let recruited := dedupSortStrings (cands.flatMap (fun c => G.successors c.device_id))
      let G1 := cands.foldl (fun g c =>
        (G.successors c.device_id).foldl (fun g2 s =>
          if g2.hasEdge c.device_id s then g2.setEdgeType c.device_id s "c2" else g2) g) G
      (⟨true, cands, recruited, 17/20⟩, G1)

/-- One step of the breadth-first search queue used to model
`nx.shortest_path` on the unweighted digraph: paths are explored in
adjacency (insertion) order, so on graphs whose geodesics are unique this
returns exactly the `networkx` path. -/
def bfsLoop (G : Graph) (dst : String) :
    ℕ → List (List String) → List String → Option (List String)
  | 0, _, _ => none
  | _ + 1, [], _ => none
  | fuel + 1, p :: queue, visited =>
    match p with
    | [] => none
    | cur :: _ =>
      if cur = dst then some p.reverse
      else
        let succs := (G.successors cur).filter (fun s => ¬ visited.contains s)
        bfsLoop G dst fuel (queue ++ succs.map (fun s => s :: p)) (visited ++ succs)

/-- `nx.shortest_path(G, src, dst)` (unweighted): `none` models the
`NetworkXNoPath` exception swallowed by the `except` clause. -/
def shortestPath (G : Graph) (src dst : String) : Option (List String) :=
  bfsLoop G dst ((G.nodes.length + 1) * (G.edges.length + 2)) [[src]] [src]

/-- The anomalous nodes of the graph, in node insertion order. -/
def anomalousNodes (G : Graph) : List String :=
  (G.nodes.filter (fun p => p.2.is_anomalous)).map (fun p => p.1)

/-- The `paths_found` list of `detect_lateral_movement`: for every ordered
pair of distinct positions in the anomalous list, the shortest directed
path, kept when its node length is between 2 and `cutoff`. -/
def pathsFound (G : Graph) (cutoff : ℕ) : List (List String) :=
  let anom := anomalousNodes G
  anom.enum.flatMap (fun i =>
    anom.enum.filterMap (fun j =>
      if i.1 = j.1 then none
      else
        match shortestPath G i.2 j.2 with
        | some p => if 2 ≤ p.length ∧ p.length ≤ cutoff then some p else none
        | none => none))

/-- The `uniq` list: `paths_found` with duplicate node sequences removed,
first occurrence kept. -/
def uniqPaths (G : Graph) : List (List String) := dedupFirst (pathsFound G 4)

/-- One `attack_paths` record. -/
structure PathRecord where
  path : List String
  length : ℕ
  entry_point : String
  final_target : String
deriving DecidableEq, Repr

def mkPathRecord (p : List String) : PathRecord := ⟨p, p.length, p.headI, p.getLastI⟩

/-- The result dictionary of `detect_lateral_movement`. -/
structure LateralResult where
  lateral_movement_detected : Bool
  attack_paths : List PathRecord
  entry_point : Option String
  compromised_devices : List String
deriving DecidableEq, Repr

def emptyLateralResult : LateralResult := ⟨false, [], none, []⟩

/-- The consecutive ordered pairs of a node sequence (the edges a path
traverses). -/
def consecPairs : List String → List (String × String)
  | a :: b :: rest => (a, b) :: consecPairs (b :: rest)
  | _ => []

/-- Relabel the traversed edges of one kept path to `"lateral"`
(`self.graph[u][v]["type"] = "lateral"` under the `has_edge` guard). -/
def relabelPath (G : Graph) (p : List String) : Graph :=
  (consecPairs p).foldl (fun g uv =>
    if g.hasEdge uv.1 uv.2 then g.setEdgeType uv.1 uv.2 "lateral" else g) G

/-- `max(set(starts), key=starts.count)`.  CPython iterates the set in a
hash-dependent order; this model uses first-occurrence order over `starts`
(one possible iteration order).  `max` keeps the first element attaining
the maximal key in that order. -/
def pyMaxByCount (starts : List String) : String :=
  match dedupFirst starts with
  | [] => ""
  | u :: us => us.foldl (fun best x => if starts.count best < starts.count x then x else best) u

/-- `detect_lateral_movement(cutoff=4)`: find short paths among anomalous
nodes, report the first 20 deduplicated ones, relabel their edges, and
derive the entry point and compromised set from all deduplicated paths.
Returns the result together with the (possibly mutated) graph. -/
def detect_lateral_movement (G : Graph) : LateralResult × Graph :=
  if (anomalousNodes G).length < 2 then (emptyLateralResult, G)
  else
    let uniq := uniqPaths G
    if uniq.isEmpty then (emptyLateralResult, G)
    else
      let top := uniq.take 20
      let records := top.map mkPathRecord
      let G1 := top.foldl relabelPath G
      let starts := uniq.map (fun p => p.headI)
      let entry := pyMaxByCount starts
      let compromised := dedupSortStrings (uniq.flatMap id)
      (⟨true, records, some entry, compromised⟩, G1)

/-- The result dictionary of `detect_coordinated_attack`.  The informational
`attack_start_time` (`pd.Timestamp.now()`) is modelled by the `now`
argument. -/
structure CoordinatedResult where
  coordinated_attack : Bool
  attack_wave : ℕ
  affected_devices : List String
  attack_start_time : Option ℤ
deriving DecidableEq, Repr

def detect_coordinated_attack (G : Graph) (now : ℤ) : CoordinatedResult :=
  if G.nodes.length = 0 then ⟨false, 0, [], none⟩
  else
    let anom := anomalousNodes G
    let ratio : ℚ := (anom.length : ℚ) / (G.nodes.length : ℚ)
    if 3 ≤ anom.length ∧ (1/5 : ℚ) ≤ ratio then ⟨true, anom.length, anom, some now⟩
    else ⟨false, 0, [], none⟩

/-- Breadth-first layers from `s`, accumulating for every reached node its
distance and its number of shortest paths from `s` (the quantities of the
Brandes betweenness computation used by `nx.betweenness_centrality`). -/
def bcBFS (G : Graph) : ℕ → List String → List (String × (ℕ × ℕ)) → ℕ →
    List (String × (ℕ × ℕ))
  | 0, _, info, _ => info
  | _ + 1, [], info, _ => info
  | fuel + 1, frontier, info, d =>
    let cand := dedupFirst (frontier.flatMap (fun u => G.successors u))
    let fresh := cand.filter (fun v => (lookupKey v info).isNone)
    let newInfo := fresh.map (fun v =>
      (v, (d + 1, (frontier.filter (fun u => G.hasEdge u v)).foldl
        (fun acc u => acc + ((lookupKey u info).map (fun q => q.2)).getD 0) 0)))
    bcBFS G fuel fresh (info ++ newInfo) (d + 1)

/-- Distance and shortest-path count from `s` for every reachable node. -/
def bcInfo (G : Graph) (s : String) : List (String × (ℕ × ℕ)) :=
  bcBFS G (G.nodes.length + 1) [s] [(s, (0, 1))] 0

/-- The contribution of the pair `(s, t)` to the betweenness of `v`:
`σ_sv · σ_vt / σ_st` when `v` lies on a shortest `s`–`t` path. -/
def pairDependency (G : Graph) (s t v : String) : ℚ :=
  if s = t ∨ s = v ∨ t = v then 0
  else
    match lookupKey t (bcInfo G s), lookupKey v (bcInfo G s), lookupKey t (bcInfo G v) with
    | some (dst, sst), some (dsv, ssv), some (dvt, svt) =>
        if dsv + dvt = dst ∧ sst ≠ 0 then ((ssv * svt : ℕ) : ℚ) / (sst : ℚ) else 0
    | _, _, _ => 0

/-- `nx.betweenness_centrality(G)[v]` for a directed graph with the default
normalization `1/((n-1)(n-2))`. -/
def betweennessOf (G : Graph) (v : String) : ℚ :=
  let raw := (G.nodes.map (fun ps =>
    (G.nodes.map (fun pt => pairDependency G ps.1 pt.1 v)).sum)).sum
  let n := G.nodes.length
  if 2 < n then raw / (((n : ℚ) - 1) * ((n : ℚ) - 2)) else raw

/-- One record of the `critical_devices` list. -/
structure CriticalRecord where
  device_id : String
  criticality_score : ℚ
  device_type : String
  is_anomalous : Bool
deriving DecidableEq, Repr

/-- Stable descending insertion by score
(`sorted(..., key=lambda x: x[1], reverse=True)` is stable). -/
def insertDescQ (x : String × ℚ) : List (String × ℚ) → List (String × ℚ)
  | [] => [x]
  | y :: ys => if x.2 ≤ y.2 then y :: insertDescQ x ys else x :: y :: ys

def sortDescQ (l : List (String × ℚ)) : List (String × ℚ) :=
  l.foldl (fun acc x => insertDescQ x acc) []

/-- `identify_critical_devices(min_score=0.08)`. -/
def identify_critical_devices (G : Graph) : List CriticalRecord :=
  if G.nodes.length < 3 then []
  else
    let bt := G.nodes.map (fun p => (p.1, betweennessOf G p.1))
    let sortedBt := sortDescQ bt
    ((sortedBt.filter (fun p => (2/25 : ℚ) ≤ p.2)).map (fun p =>
      ⟨p.1, pyRound 3 p.2,
        ((G.findNode p.1).map (fun a => a.device_type)).getD "unknown",
        ((G.findNode p.1).map (fun a => a.is_anomalous)).getD false⟩)).take 10

/-- `detect_isolated_devices`: total degree at most 1. -/
def detect_isolated_devices (G : Graph) : List String :=
  (G.nodes.filter (fun p => G.inDegree p.1 + G.outDegree p.1 ≤ 1)).map (fun p => p.1)

/-- `get_network_health_score`. -/
def get_network_health_score (G : Graph) : ℚ :=
  let N := G.nodes.length
  if N = 0 then 100
  else
    let anomalous := (anomalousNodes G).length
    let anomaly_rate : ℚ := (anomalous : ℚ) / (N : ℚ)
    let avg_degree : ℚ :=
      ((G.nodes.map (fun p => G.inDegree p.1 + G.outDegree p.1)).sum : ℚ) / (N : ℚ)
    let connectivity : ℚ := min (avg_degree / 6) 1
    let isolated := (detect_isolated_devices G).length
    let isolated_rate : ℚ := (isolated : ℚ) / (N : ℚ)
    let health := (1 - anomaly_rate) * 65 + connectivity * 25 + (1 - isolated_rate) * 10
    pyRound 2 (max 0 (min 100 health))

/-- One exported node record.  `inDeg`/`outDeg` model the `"in"`/`"out"`
keys of the source record (`in` is reserved in Lean). -/
structure ExportNode where
  id : String
  group : String
  device_type : String
  is_anomalous : Bool
  traffic : ℤ
  cpu : ℚ
  memory : ℚ
  inDeg : ℕ
  outDeg : ℕ
deriving DecidableEq, Repr

/-- One exported link record. -/
structure ExportLink where
  source : String
  target : String
  etype : String
  weight : ℚ
  count : ℤ
  total_packets : ℤ
  total_out_kb : ℤ
deriving DecidableEq, Repr

/-- The value returned by `export_for_frontend`:
`{"nodes": nodes, "links": links}`. -/
structure FrontendExport where
  nodes : List ExportNode
  links : List ExportLink
deriving DecidableEq, Repr

/-- The keys of the dictionary literal returned by `export_for_frontend`
(source line 525: `return {"nodes": nodes, "links": links}`). -/
def export_keys : List String := ["nodes", "links"]

/-- `export_for_frontend`: assign display groups (anomalous/normal, then
critical for not-anomalous critical nodes, then c2 overrides everything),
then materialize node and link records.  `detect_botnet_patterns` is called
again here and re-mutates `self.graph`, so the mutated graph is returned
alongside the export. -/
def export_for_frontend (G : Graph) : FrontendExport × Graph :=
  let group0 : List (String × String) :=
    G.nodes.map (fun p => (p.1, if p.2.is_anomalous then "anomalous" else "normal"))
  let critical := identify_critical_devices G
  let group1 := critical.foldl (fun m c =>
    if lookupKey c.device_id m ≠ some "anomalous" then setKey c.device_id "critical" m else m)
    group0
  let botG := detect_botnet_patterns G
  let group2 := botG.1.c2_candidates.foldl (fun m c => setKey c.device_id "c2" m) group1
  let G1 := botG.2
  let nodes := G1.nodes.map (fun p =>
    (⟨p.1, (lookupKey p.1 group2).getD "normal", p.2.device_type, p.2.is_anomalous,
      p.2.total_traffic, p.2.avg_cpu, p.2.avg_memory,
      G1.inDegree p.1, G1.outDegree p.1⟩ : ExportNode))
  let links := G1.edges.map (fun p =>
    (⟨p.1.1, p.1.2, p.2.etype, p.2.weight, p.2.count, p.2.total_packets,
      p.2.total_out_kb⟩ : ExportLink))
  (⟨nodes, links⟩, G1)

/-- The `network_summary` section. -/
structure NetworkSummary where
  total_devices : ℕ
  total_connections : ℕ
  health_score : ℚ
  isolated_devices : List String
deriving DecidableEq, Repr

/-- The full return value of `analyze_network`. -/
structure AnalysisResult where
  network_summary : NetworkSummary
  botnet_analysis : BotnetResult
  lateral_movement : LateralResult
  coordinated_attack : CoordinatedResult
  critical_devices : List CriticalRecord
  graph : FrontendExport
deriving DecidableEq, Repr

/-- The keys of the dictionary literal returned by `analyze_network`
(source lines 554–567). -/
def analyze_result_keys : List String :=
  ["network_summary", "botnet_analysis", "lateral_movement", "coordinated_attack",
   "critical_devices", "graph"]

/-- The graph as it stands after the botnet and lateral-movement detectors
have run inside `analyze_network` (the state the remaining computations
read). -/
def finalGraph (cfg : Config) (st : AggState) (now : ℤ) (batch : List Event) : Graph :=
  (detect_lateral_movement (detect_botnet_patterns
    (build_communication_graph cfg st now batch).1).2).2

/-- `analyze_network(telemetry_data)` on one analyzer instance: the second
component is the instance's `self.edge_agg` after the call (the only
instance state the next call starts from, since `build_communication_graph`
replaces `self.graph`). -/
def analyze_network (cfg : Config) (st : AggState) (now : ℤ) (batch : List Event) :
    AnalysisResult × AggState :=
  let bg := build_communication_graph cfg st now batch
  let st1 := bg.2
  let botnet := detect_botnet_patterns bg.1
  let lateral := detect_lateral_movement botnet.2
  let G2 := lateral.2
  let coordinated := detect_coordinated_attack G2 now
  let critical := identify_critical_devices G2
  let health := get_network_health_score G2
  let isolated := detect_isolated_devices G2
  let payload := (export_for_frontend G2).1
  (⟨⟨G2.nodes.length, G2.edges.length, health, isolated⟩,
    botnet.1, lateral.1, coordinated, critical, payload⟩, st1)

/-- Modelled from the spec wording of §4.3 for comparison with the code:
a C2 candidate per the spec has
`out-degree ≥ max(3, round(0.25 * totalNodes))` (Python `round`, i.e.
half-to-even) and `out-degree / (in-degree + 1) > 2.0`. -/
def spec_c2_candidate (G : Graph) (n : String) : Prop :=
  (G.outDegree n : ℤ) ≥ max 3 (roundHalfEven ((1/4 : ℚ) * (G.nodes.length : ℚ)))
    ∧ ((G.outDegree n : ℚ) / ((G.inDegree n : ℚ) + 1) > 2)

instance (G : Graph) (n : String) : Decidable (spec_c2_candidate G n) := by
  unfold spec_c2_candidate; infer_instance

/-- Modelled from the spec wording of §4.2/§4.7 (claim C8): the
communication-likelihood formula exactly as the spec states it. -/
def spec_likelihood (d1 d2 : Event) : ℚ :=
  if d1.network_out_kb < 250 ∨ d2.network_in_kb < 250 then 0
  else
    (3/4) * (min d1.network_out_kb d2.network_in_kb / max d1.network_out_kb d2.network_in_kb)
      + (1/4) * min ((d1.packet_rate + d2.packet_rate) / 2000) 1

/-- Modelled from the spec wording of §4.7 (claim C7): the health formula
clamped to `[0, 100]`, with no rounding, and `100` for an empty graph. -/
def spec_health_score (G : Graph) : ℚ :=
  if G.nodes.length = 0 then 100
  else
    let anomalyRatio : ℚ := ((anomalousNodes G).length : ℚ) / (G.nodes.length : ℚ)
    let avgDegree : ℚ :=
      ((G.nodes.map (fun p => G.inDegree p.1 + G.outDegree p.1)).sum : ℚ) / (G.nodes.length : ℚ)
    let isolatedRatio : ℚ := ((detect_isolated_devices G).length : ℚ) / (G.nodes.length : ℚ)
    max 0 (min 100
      ((1 - anomalyRatio) * 65 + min (avgDegree / 6) 1 * 25 + (1 - isolatedRatio) * 10))

/-- The edge keys traversed by a collection of paths. -/
def traversedPairs (ps : List (List String)) : List (String × String) :=
  ps.flatMap consecPairs

/- Concrete inputs used by the theorems below. -/

/-- A one-event batch: device `a` explicitly communicating with `b`. -/
def batchC1 : List Event :=
  [{ device_id := "a", comm_target := some "b", timestamp := some 0,
     packet_rate := 100, network_out_kb := 10, network_in_kb := 5 }]

/-- The first `analyze_network` call on a fresh analyzer instance. -/
def C1run1 : AnalysisResult × AggState := analyze_network cfgDefault [] 0 batchC1

/-- The second `analyze_network` call on the same instance (its `edge_agg`
carries over from the first call). -/
def C1run2 : AnalysisResult × AggState := analyze_network cfgDefault C1run1.2 0 batchC1

/-- A 14-device batch: hub `a` explicitly targets `b`, `c`, `d`; ten further
devices are observed without communication (their self-targets are dropped
by the `src == dst` guard). -/
def batchC2 : List Event :=
  [{ device_id := "a", comm_target := some "b", timestamp := some 0 },
   { device_id := "a", comm_target := some "c", timestamp := some 100 },
   { device_id := "a", comm_target := some "d", timestamp := some 200 },
   { device_id := "e", comm_target := some "e", timestamp := some 300 },
   { device_id := "f", comm_target := some "f", timestamp := some 400 },
   { device_id := "g", comm_target := some "g", timestamp := some 500 },
   { device_id := "h", comm_target := some "h", timestamp := some 600 },
   { device_id := "i", comm_target := some "i", timestamp := some 700 },
   { device_id := "j", comm_target := some "j", timestamp := some 800 },
   { device_id := "k", comm_target := some "k", timestamp := some 900 },
   { device_id := "l", comm_target := some "l", timestamp := some 1000 },
   { device_id := "m", comm_target := some "m", timestamp := some 1100 },
   { device_id := "n", comm_target := some "n", timestamp := some 1200 }]

def G14 : Graph := (build_communication_graph cfgDefault [] 0 batchC2).1

/-- A 3-device batch with one anomalous device and no communication. -/
def batchC7 : List Event :=
  [{ device_id := "a", timestamp := some 0, label := "Anomaly" },
   { device_id := "b", timestamp := some 100 },
   { device_id := "c", timestamp := some 200 }]

def GC7 : Graph := (build_communication_graph cfgDefault [] 0 batchC7).1

/-- Events with large negative packet rates and just-threshold traffic. -/
def eNeg1 : Event := { device_id := "x", network_out_kb := 250, packet_rate := -4000 }

def eNeg2 : Event := { device_id := "y", network_in_kb := 250, packet_rate := -4000 }

/-- The 21 anomalous source devices of the lateral-movement stress batch. -/
def srcIds : List String :=
  ["a","b","c","d","e","f","g","h","i","j","k","l","m","n","o","p","q","r","s","t","u"]

/-- 21 anomalous devices each explicitly targeting the anomalous device `z`:
the built graph has 21 distinct qualifying two-node paths, one over the cap
of 20. -/
def batchC4 : List Event :=
  (srcIds.enum.map (fun p =>
    ({ device_id := p.2, comm_target := some "z", timestamp := some (100 * (p.1 : ℤ)),
       is_anomalous := some true } : Event)))
  ++ [{ device_id := "z", comm_target := some "z", timestamp := some 2200,
        is_anomalous := some true }]

def G21 : Graph := (build_communication_graph cfgDefault [] 0 batchC4).1

/-- Two disjoint anomalous explicit edges `a→b` and `c→d`: the kept paths
are `[a,b]` and `[c,d]`, so the path starts `a` and `c` are tied. -/
def batchC5 : List Event :=
  [{ device_id := "a", comm_target := some "b", timestamp := some 0, is_anomalous := some true },
   { device_id := "b", comm_target := some "b", timestamp := some 100, is_anomalous := some true },
   { device_id := "c", comm_target := some "d", timestamp := some 200, is_anomalous := some true },
   { device_id := "d", comm_target := some "d", timestamp := some 300, is_anomalous := some true }]

def GC5 : Graph := (build_communication_graph cfgDefault [] 0 batchC5).1

/-- A 6-device star: hub `h` explicitly targets `a`,`b`,`c`,`d`,`e`; `h`
and `a` are anomalous. -/
def batchStar : List Event :=
  [{ device_id := "h", comm_target := some "a", timestamp := some 0, is_anomalous := some true },
   { device_id := "h", comm_target := some "b", timestamp := some 100 },
   { device_id := "h", comm_target := some "c", timestamp := some 200 },
   { device_id := "h", comm_target := some "d", timestamp := some 300 },
   { device_id := "h", comm_target := some "e", timestamp := some 400 },
   { device_id := "a", comm_target := some "a", timestamp := some 500, is_anomalous := some true }]

def Gstar : Graph := (build_communication_graph cfgDefault [] 0 batchStar).1

/-- The star graph after the botnet detector has relabelled the hub's edges
to `"c2"` (the state `detect_lateral_movement` runs on inside
`analyze_network`). -/
def Gw4 : Graph := (detect_botnet_patterns Gstar).2

/-- A two-device anomalous chain `x→y`. -/
def batchC10 : List Event :=
  [{ device_id := "x", comm_target := some "y", timestamp := some 0, is_anomalous := some true },
   { device_id := "y", comm_target := some "y", timestamp := some 100, is_anomalous := some true }]

def GC10 : Graph := (build_communication_graph cfgDefault [] 0 batchC10).1

/-- A graph with a single anomalous node. -/
def GC6 : Graph :=
  ⟨[("a", ⟨"unknown", true, 0, 0, 0, 0⟩), ("b", ⟨"unknown", false, 0, 0, 0, 0⟩)], []⟩

/-- A concrete explicit event for the double-feed witness. -/
def eC9 : Event := { device_id := "p", comm_target := some "q", timestamp := some 5,
                     packet_rate := 7, network_out_kb := 3, network_in_kb := 2 }

/-- Concrete events for the likelihood-range witness. -/
def eW1 : Event := { device_id := "x", network_out_kb := 300, network_in_kb := 0, packet_rate := 500 }

def eW2 : Event := { device_id := "y", network_out_kb := 0, network_in_kb := 600, packet_rate := 700 }

/-! ## Helper lemmas -/

/-- Rounding a nonnegative rational gives a nonnegative integer. -/
theorem roundHalfEven_nonneg {q : ℚ} (h : 0 ≤ q) : 0 ≤ roundHalfEven q := by
  have h0 : (0 : ℤ) ≤ ⌊q⌋ := Int.floor_nonneg.mpr h
  simp only [roundHalfEven]
  split_ifs <;> omega

/-- Rounding respects an integer upper bound. -/
theorem roundHalfEven_le {q : ℚ} {B : ℤ} (h : q ≤ (B : ℚ)) : roundHalfEven q ≤ B := by
  have hfl : ⌊q⌋ ≤ B := by
    have h2 := Int.floor_le_floor h
    rwa [Int.floor_intCast] at h2
  have hfls : (⌊q⌋ : ℚ) ≤ q := Int.floor_le q
  simp only [roundHalfEven]
  split_ifs with h1 h2 h3
  · exact hfl
  · have hle : (⌊q⌋ : ℚ) + 1/2 ≤ q := by linarith
    have hlt : ((⌊q⌋ : ℤ) : ℚ) < (B : ℚ) := by linarith
    have hz : ⌊q⌋ < B := by exact_mod_cast hlt
    omega
  · have hle : (⌊q⌋ : ℚ) + 1/2 ≤ q := by
      have := not_lt.mp h1
      linarith
    have hlt : ((⌊q⌋ : ℤ) : ℚ) < (B : ℚ) := by linarith
    have hz : ⌊q⌋ < B := by exact_mod_cast hlt
    omega
  · have hle : (⌊q⌋ : ℚ) + 1/2 ≤ q := by
      have := not_lt.mp h1
      linarith
    have hlt : ((⌊q⌋ : ℤ) : ℚ) < (B : ℚ) := by linarith
    have hz : ⌊q⌋ < B := by exact_mod_cast hlt
    omega

/-- `pyRound` of a nonnegative rational is nonnegative. -/
theorem pyRound_nonneg {d : ℕ} {q : ℚ} (h : 0 ≤ q) : 0 ≤ pyRound d q := by
  unfold pyRound
  have h10 : (0 : ℚ) < (10 : ℚ) ^ d := by positivity
  apply div_nonneg _ h10.le
  have hz : (0 : ℤ) ≤ roundHalfEven (q * 10 ^ d) := roundHalfEven_nonneg (by positivity)
  exact_mod_cast hz

/-- `pyRound` respects an integer upper bound. -/
theorem pyRound_le {d : ℕ} {q : ℚ} {B : ℤ} (h : q ≤ (B : ℚ)) : pyRound d q ≤ (B : ℚ) := by
  unfold pyRound
  have h10 : (0 : ℚ) < (10 : ℚ) ^ d := by positivity
  rw [div_le_iff₀ h10]
  have h1 : q * (10 : ℚ) ^ d ≤ ((B * 10 ^ d : ℤ) : ℚ) := by
    push_cast
    exact mul_le_mul_of_nonneg_right h h10.le
  have h2 := roundHalfEven_le h1
  exact_mod_cast h2

/-- Key lookup after an in-place update of one key's value. -/
theorem lookupKey_mapUpdate {α β : Type} [DecidableEq α] (j k : α) (f : β → β)
    (l : List (α × β)) :
    lookupKey k (l.map (fun p => if p.1 = j then (p.1, f p.2) else p)) =
      (if k = j then (lookupKey k l).map f else lookupKey k l) := by
  induction l with
  | nil => simp [lookupKey]
  | cons p rest ih =>
    simp only [List.map_cons]
    by_cases hpj : p.1 = j
    · subst hpj
      by_cases hpk : p.1 = k
      · subst hpk
        simp [lookupKey]
      · have hkp : ¬ k = p.1 := fun h => hpk h.symm
        simp [lookupKey, hpk, hkp, ih]
    · by_cases hpk : p.1 = k
      · subst hpk
        simp [lookupKey, hpj]
      · simp [lookupKey, hpj, hpk, ih]

/-- The effect of `setEdgeType` on `findEdge`. -/
theorem findEdge_setEdgeType (G : Graph) (u v : String) (t : String) (k : String × String) :
    (G.setEdgeType u v t).findEdge k =
      (if k = (u, v) then (G.findEdge k).map (fun a => { a with etype := t }) else G.findEdge k) := by
  unfold Graph.setEdgeType Graph.findEdge
  exact lookupKey_mapUpdate (u, v) k (fun a => { a with etype := t }) G.edges

/-- `relabelPath` is a fold of the single-edge relabelling step over the
path's consecutive pairs. -/
theorem relabelPath_eq_fold (G : Graph) (p : List String) :
    relabelPath G p = (consecPairs p).foldl
      (fun g uv => if g.hasEdge uv.1 uv.2 then g.setEdgeType uv.1 uv.2 "lateral" else g) G := rfl

/-- An edge key outside `ks` is untouched by the relabelling fold. -/
theorem findEdge_relabelFold_notMem (ks : List (String × String)) (G : Graph)
    (k : String × String) (hk : k ∉ ks) :
    ((ks.foldl (fun g uv => if g.hasEdge uv.1 uv.2 then g.setEdgeType uv.1 uv.2 "lateral" else g)
      G).findEdge k) = G.findEdge k := by
  induction ks generalizing G with
  | nil => rfl
  | cons uv rest ih =>
    have hne : ¬ k = (uv.1, uv.2) := by
      intro h
      exact hk (by rw [h, Prod.mk.eta]; exact List.mem_cons_self uv rest)
    have hrest : k ∉ rest := fun h => hk (List.mem_cons_of_mem uv h)
    simp only [List.foldl_cons]
    rw [ih _ hrest]
    cases hE : G.hasEdge uv.1 uv.2
    · simp [hE]
    · simp only [hE, if_true]
      rw [findEdge_setEdgeType, if_neg hne]

/-- An edge key of `ks` that exists in the graph carries type `"lateral"`
after the relabelling fold. -/
theorem findEdge_relabelFold_mem (ks : List (String × String)) (G : Graph)
    (k : String × String) (a : EdgeAttrs) (hk : k ∈ ks) (ha : G.findEdge k = some a) :
    ((ks.foldl (fun g uv => if g.hasEdge uv.1 uv.2 then g.setEdgeType uv.1 uv.2 "lateral" else g)
      G).findEdge k) = some { a with etype := "lateral" } := by
  induction ks generalizing G a with
  | nil => cases hk
  | cons uv rest ih =>
    simp only [List.foldl_cons]
    by_cases hku : k = (uv.1, uv.2)
    · have hE : G.hasEdge uv.1 uv.2 = true := by
        unfold Graph.hasEdge
        rw [← hku, ha]
        rfl
      rw [if_pos hE]
      have hset : (G.setEdgeType uv.1 uv.2 "lateral").findEdge k
          = some { a with etype := "lateral" } := by
        rw [findEdge_setEdgeType, if_pos hku, ha]
        rfl
      by_cases hrest : k ∈ rest
      · exact ih _ { a with etype := "lateral" } hrest hset
      · rw [findEdge_relabelFold_notMem rest _ k hrest, hset]
    · have hrest : k ∈ rest := by
        cases List.mem_cons.mp hk with
        | inl h => exact absurd (by rw [h, Prod.mk.eta]) hku
        | inr h => exact h
      cases hE : G.hasEdge uv.1 uv.2
      · simp only [hE, Bool.false_eq_true, if_false]
        exact ih _ _ hrest ha
      · simp only [hE, if_true]
        refine ih _ _ hrest ?_
        rw [findEdge_setEdgeType, if_neg hku]
        exact ha

/-- A key absent from the graph stays absent through the relabelling fold. -/
theorem findEdge_relabelFold_none (ks : List (String × String)) (G : Graph)
    (k : String × String) (ha : G.findEdge k = none) :
    ((ks.foldl (fun g uv => if g.hasEdge uv.1 uv.2 then g.setEdgeType uv.1 uv.2 "lateral" else g)
      G).findEdge k) = none := by
  induction ks generalizing G with
  | nil => exact ha
  | cons uv rest ih =>
    simp only [List.foldl_cons]
    cases hE : G.hasEdge uv.1 uv.2
    · simp only [hE, Bool.false_eq_true, if_false]
      exact ih _ ha
    · simp only [hE, if_true]
      refine ih _ ?_
      rw [findEdge_setEdgeType]
      split_ifs
      · rw [ha]; rfl
      · exact ha

/-- Frame property over a list of paths: an edge traversed by none of them
is untouched. -/
theorem findEdge_relabelPaths_notMem (ps : List (List String)) (G : Graph)
    (k : String × String) (hk : k ∉ traversedPairs ps) :
    ((ps.foldl relabelPath G).findEdge k) = G.findEdge k := by
  induction ps generalizing G with
  | nil => rfl
  | cons p rest ih =>
    have hp : k ∉ consecPairs p := by
      intro h
      exact hk (by unfold traversedPairs; exact List.mem_flatMap.mpr ⟨p, List.mem_cons_self p rest, h⟩)
    have hrest : k ∉ traversedPairs rest := by
      intro h
      apply hk
      unfold traversedPairs at h ⊢
      rcases List.mem_flatMap.mp h with ⟨q, hq, hkq⟩
      exact List.mem_flatMap.mpr ⟨q, List.mem_cons_of_mem p hq, hkq⟩
    simp only [List.foldl_cons]
    rw [ih _ hrest, relabelPath_eq_fold, findEdge_relabelFold_notMem _ _ _ hp]

/-- An existing edge traversed by some path of the list carries type
`"lateral"` after relabelling. -/
theorem findEdge_relabelPaths_mem (ps : List (List String)) (G : Graph)
    (k : String × String) (a : EdgeAttrs) (hk : k ∈ traversedPairs ps)
    (ha : G.findEdge k = some a) :
    ((ps.foldl relabelPath G).findEdge k) = some { a with etype := "lateral" } := by
  induction ps generalizing G a with
  | nil => cases hk
  | cons p rest ih =>
    simp only [List.foldl_cons]
    by_cases hp : k ∈ consecPairs p
    · have hstep : (relabelPath G p).findEdge k = some { a with etype := "lateral" } := by
        rw [relabelPath_eq_fold]
        exact findEdge_relabelFold_mem _ _ _ _ hp ha
      by_cases hrest : k ∈ traversedPairs rest
      · exact ih _ { a with etype := "lateral" } hrest hstep
      · rw [findEdge_relabelPaths_notMem rest _ k hrest, hstep]
    · have hrest : k ∈ traversedPairs rest := by
        unfold traversedPairs at hk ⊢
        rcases List.mem_flatMap.mp hk with ⟨q, hq, hkq⟩
        cases List.mem_cons.mp hq with
        | inl h => exact absurd (h ▸ hkq) hp
        | inr h => exact List.mem_flatMap.mpr ⟨q, h, hkq⟩
      have hstep : (relabelPath G p).findEdge k = some a := by
        rw [relabelPath_eq_fold]
        rw [findEdge_relabelFold_notMem _ _ _ hp]
        exact ha
      exact ih _ _ hrest hstep

/-- A key absent from the graph stays absent through path relabelling. -/
theorem findEdge_relabelPaths_none (ps : List (List String)) (G : Graph)
    (k : String × String) (ha : G.findEdge k = none) :
    ((ps.foldl relabelPath G).findEdge k) = none := by
  induction ps generalizing G with
  | nil => exact ha
  | cons p rest ih =>
    simp only [List.foldl_cons]
    refine ih _ ?_
    rw [relabelPath_eq_fold]
    exact findEdge_relabelFold_none _ _ _ ha

/-! ## Claim theorems -/

/-- C6: for every built graph in which fewer than 2 nodes carry the
anomalous flag, the lateral-movement detector returns the not-detected
result (detected false, no attack paths, null entry point, no compromised
devices), leaves the graph untouched, and (being a total function) raises
no error, regardless of topology. -/
theorem C6_few_anomalous_not_detected (G : Graph)
    (h : (anomalousNodes G).length < 2) :
    detect_lateral_movement G = (⟨false, [], none, []⟩, G) := by
  unfold detect_lateral_movement
  rw [if_pos h]
  rfl

/-- C6 witness: a concrete graph with a single anomalous node. -/
theorem C6_few_anomalous_witness :
    (anomalousNodes GC6).length < 2
    ∧ detect_lateral_movement GC6 = (⟨false, [], none, []⟩, GC6) :=
  ⟨by decide, C6_few_anomalous_not_detected GC6 (by decide)⟩

/-- C7 counterexample: on a built 3-node graph with one anomalous node and
no edges the returned health score is the 2-decimal rounding `43.33`, not
the exact clamped formula value `130/3 = 43.333…` the claim states. -/
theorem C7_counterexample :
    get_network_health_score GC7 = 4333/100
    ∧ spec_health_score GC7 = 130/3
    ∧ get_network_health_score GC7 ≠ spec_health_score GC7 := by decide

/-- C7 (amended): the health score equals the spec's clamped formula
rounded half-to-even at 2 decimal places, always lies within `[0, 100]`,
and is exactly `100` on a graph with zero nodes. -/
theorem C7_health_rounded (G : Graph) :
    get_network_health_score G = pyRound 2 (spec_health_score G)
    ∧ 0 ≤ get_network_health_score G
    ∧ get_network_health_score G ≤ 100
    ∧ (G.nodes.length = 0 → get_network_health_score G = 100) := by
  have hspec_lb : 0 ≤ spec_health_score G := by
    simp only [spec_health_score]
    split_ifs
    · norm_num
    · exact le_max_left 0 _
  have hspec_ub : spec_health_score G ≤ 100 := by
    simp only [spec_health_score]
    split_ifs
    · norm_num
    · exact max_le (by norm_num) (min_le_left 100 _)
  have heq : get_network_health_score G = pyRound 2 (spec_health_score G) := by
    by_cases hN : G.nodes.length = 0
    · simp only [get_network_health_score, spec_health_score, hN, if_pos]
      decide
    · simp only [get_network_health_score, spec_health_score, hN, if_neg, if_false]
  refine ⟨heq, ?_, ?_, ?_⟩
  · rw [heq]
    exact pyRound_nonneg hspec_lb
  · rw [heq]
    have h100 : spec_health_score G ≤ ((100 : ℤ) : ℚ) := by exact_mod_cast hspec_ub
    have := pyRound_le (d := 2) h100
    exact_mod_cast this
  · intro hN
    simp only [get_network_health_score, hN, if_pos]

/-- C3 counterexample: the `graph` payload's dictionary keys are `nodes`
and `links`; there is no list named `edges`. -/
theorem C3_counterexample :
    export_keys = ["nodes", "links"] ∧ "edges" ∉ export_keys := by decide

/-- C3 (amended): for every input batch (and analyzer state and clock), the
top-level result holds exactly the six sections named in the source's
return dictionary, and its `graph` section is the exporter's payload — the
two lists named `nodes` and `links` — computed on the post-detection
graph. -/
theorem C3_graph_section (cfg : Config) (st : AggState) (now : ℤ) (batch : List Event) :
    (analyze_network cfg st now batch).1.graph
        = (export_for_frontend (finalGraph cfg st now batch)).1
    ∧ analyze_result_keys
        = ["network_summary", "botnet_analysis", "lateral_movement", "coordinated_attack",
           "critical_devices", "graph"]
    ∧ export_keys = ["nodes", "links"] :=
  ⟨rfl, rfl, rfl⟩

/-- C5: at the concrete built graph with kept paths `[a,b]` and `[c,d]`
(all four devices anomalous), the path starts are `a` and `c` with equal
frequency — the entry-point tie the claim's tie-break rule addresses.  The
code resolves it with `max(set(starts), key=starts.count)`, whose winner
depends on CPython's hash-randomized set iteration order. -/
theorem C5_tie_exists :
    ((uniqPaths GC5).map (fun p => p.headI)) = ["a", "c"]
    ∧ ((uniqPaths GC5).map (fun p => p.headI)).count "a"
        = ((uniqPaths GC5).map (fun p => p.headI)).count "c" := by decide

/-- C8 counterexample: with packet rates `-4000` and just-threshold traffic
the likelihood evaluates to `-1/4`, outside `[0, 1]` (the code never
clamps). -/
theorem C8_counterexample :
    likelihood eNeg1 eNeg2 = -(1/4 : ℚ) ∧ ¬ (0 ≤ likelihood eNeg1 eNeg2) := by decide

/-- C8 (amended): the likelihood equals the spec's formula (0 below the
250 KB thresholds, otherwise the similarity/packet-boost sum, with no
clamping), and whenever both packet rates are nonnegative the score lies
within `[0, 1]`. -/
theorem C8_likelihood_range (d1 d2 : Event)
    (h1 : 0 ≤ d1.packet_rate) (h2 : 0 ≤ d2.packet_rate) :
    likelihood d1 d2 = spec_likelihood d1 d2
    ∧ 0 ≤ likelihood d1 d2 ∧ likelihood d1 d2 ≤ 1 := by
  refine ⟨rfl, ?_, ?_⟩
  · simp only [likelihood]
    split_ifs with hc
    · norm_num
    · push_neg at hc
      obtain ⟨ho, hi⟩ := hc
      have hminpos : (0 : ℚ) < min d1.network_out_kb d2.network_in_kb :=
        lt_of_lt_of_le (by norm_num) (le_min ho hi)
      have hmaxpos : (0 : ℚ) < max d1.network_out_kb d2.network_in_kb :=
        lt_of_lt_of_le hminpos min_le_max
      have hsim0 : 0 ≤ min d1.network_out_kb d2.network_in_kb
          / max d1.network_out_kb d2.network_in_kb := div_nonneg hminpos.le hmaxpos.le
      have hb0 : 0 ≤ min ((d1.packet_rate + d2.packet_rate) / 2000) 1 :=
        le_min (by positivity) (by norm_num)
      linarith
  · simp only [likelihood]
    split_ifs with hc
    · norm_num
    · push_neg at hc
      obtain ⟨ho, hi⟩ := hc
      have hminpos : (0 : ℚ) < min d1.network_out_kb d2.network_in_kb :=
        lt_of_lt_of_le (by norm_num) (le_min ho hi)
      have hmaxpos : (0 : ℚ) < max d1.network_out_kb d2.network_in_kb :=
        lt_of_lt_of_le hminpos min_le_max
      have hsim0 : 0 ≤ min d1.network_out_kb d2.network_in_kb
          / max d1.network_out_kb d2.network_in_kb := div_nonneg hminpos.le hmaxpos.le
      have hsim1 : min d1.network_out_kb d2.network_in_kb
          / max d1.network_out_kb d2.network_in_kb ≤ 1 :=
        div_le_one_of_le₀ min_le_max hmaxpos.le
      have hb0 : 0 ≤ min ((d1.packet_rate + d2.packet_rate) / 2000) 1 :=
        le_min (by positivity) (by norm_num)
      have hb1 : min ((d1.packet_rate + d2.packet_rate) / 2000) 1 ≤ 1 := min_le_right _ _
      linarith

/-- C8 witness: concrete events with nonnegative packet rates. -/
theorem C8_likelihood_range_witness :
    0 ≤ eW1.packet_rate ∧ 0 ≤ eW2.packet_rate
    ∧ (likelihood eW1 eW2 = spec_likelihood eW1 eW2
       ∧ 0 ≤ likelihood eW1 eW2 ∧ likelihood eW1 eW2 ≤ 1) :=
  ⟨by decide, by decide, C8_likelihood_range eW1 eW2 (by decide) (by decide)⟩

/-- C1: the analyzer's `edge_agg` dictionary persists across
`analyze_network` calls (only `self.graph` is rebuilt), so the second of
two identical calls on the same instance reports the edge with `count = 2`
and doubled totals — the two results are not equal, contradicting the
spec's statelessness/determinism invariant. -/
theorem C1_state_leak :
    C1run1.1.graph.links.map (fun l => l.count) = [1]
    ∧ C1run2.1.graph.links.map (fun l => l.count) = [2]
    ∧ C1run1.1 ≠ C1run2.1 := by decide

/-- `int(0.25 * N)` truncates: it is the floor `N / 4`. -/
theorem pyInt_quarter (N : ℕ) : pyInt ((1/4 : ℚ) * (N : ℚ)) = ((N / 4 : ℕ) : ℤ) := by
  have hq : (1/4 : ℚ) * (N : ℚ) = (N : ℚ) / 4 := by ring
  unfold pyInt
  rw [if_neg (not_lt.mpr (by positivity)), hq]
  rw [Int.floor_eq_iff]
  constructor
  · rw [le_div_iff₀ (by norm_num : (0:ℚ) < 4)]
    exact_mod_cast Nat.div_mul_le_self N 4
  · rw [div_lt_iff₀ (by norm_num : (0:ℚ) < 4)]
    have hlt : N < (N / 4 + 1) * 4 := by omega
    push_cast
    exact_mod_cast hlt

/-- The candidate test spelled out over the truncated quarter threshold. -/
theorem c2CandidateCond_iff (G : Graph) (n : String) :
    c2CandidateCond G n ↔
      (3 ≤ G.outDegree n ∧ G.nodes.length / 4 ≤ G.outDegree n
        ∧ 2 < (G.outDegree n : ℚ) / ((G.inDegree n : ℚ) + 1)) := by
  unfold c2CandidateCond
  rw [pyInt_quarter]
  constructor
  · rintro ⟨h1, h2⟩
    rw [ge_iff_le, max_le_iff] at h1
    exact ⟨by omega, by omega, h2⟩
  · rintro ⟨h1, h2, h3⟩
    refine ⟨?_, h3⟩
    rw [ge_iff_le, max_le_iff]
    constructor <;> omega

/-- With at least 4 nodes, the reported candidate list is exactly the
candidate accumulation. -/
theorem c2_candidates_eq (G : Graph) (h : 4 ≤ G.nodes.length) :
    (detect_botnet_patterns G).1.c2_candidates = c2Candidates G := by
  simp only [detect_botnet_patterns]
  rw [if_neg (by omega)]
  cases hE : (c2Candidates G).isEmpty
  · simp only [hE, Bool.false_eq_true, if_false]
  · simp only [hE, if_true]
    exact (List.isEmpty_iff.mp hE).symm

/-- With at least 4 nodes, detection and confidence are determined by the
emptiness of the candidate list. -/
theorem detect_botnet_shape (G : Graph) (h : 4 ≤ G.nodes.length) :
    ((detect_botnet_patterns G).1.botnet_detected = true ↔
        (detect_botnet_patterns G).1.c2_candidates ≠ [])
    ∧ (detect_botnet_patterns G).1.confidence
        = (if (detect_botnet_patterns G).1.c2_candidates = [] then 0 else 17/20) := by
  simp only [detect_botnet_patterns]
  rw [if_neg (by omega)]
  cases hE : (c2Candidates G).isEmpty
  · have hne : c2Candidates G ≠ [] := by
      intro hnil
      rw [List.isEmpty_iff.mpr hnil] at hE
      cases hE
    simp only [hE, Bool.false_eq_true, if_false]
    simp [hne]
  · have hnil := List.isEmpty_iff.mp hE
    simp only [hE, if_true]
    simp [emptyBotnetResult]

/-- C2 (amended): with `N ≥ 4` nodes, a node is reported as a C2 candidate
iff its out-degree is at least `max(3, ⌊0.25·N⌋)` (the code truncates, it
does not round) and out-degree / (in-degree + 1) exceeds 2; each
candidate's c2_score is `out-degree / N` rounded half-to-even at 3 decimal
places; botnet_detected is true with confidence exactly 0.85 when a
candidate exists, otherwise false with confidence 0.0. -/
theorem C2_botnet_characterization (G : Graph) (h : 4 ≤ G.nodes.length) :
    (∀ n : String,
      (∃ r ∈ (detect_botnet_patterns G).1.c2_candidates, r.device_id = n) ↔
        ((∃ a, (n, a) ∈ G.nodes) ∧ 3 ≤ G.outDegree n ∧ G.nodes.length / 4 ≤ G.outDegree n
          ∧ 2 < (G.outDegree n : ℚ) / ((G.inDegree n : ℚ) + 1)))
    ∧ (∀ r ∈ (detect_botnet_patterns G).1.c2_candidates,
        r.out_connections = G.outDegree r.device_id
        ∧ r.in_connections = G.inDegree r.device_id
        ∧ r.c2_score = pyRound 3 ((G.outDegree r.device_id : ℚ) / (G.nodes.length : ℚ)))
    ∧ ((detect_botnet_patterns G).1.botnet_detected = true ↔
        (detect_botnet_patterns G).1.c2_candidates ≠ [])
    ∧ (detect_botnet_patterns G).1.confidence
        = (if (detect_botnet_patterns G).1.c2_candidates = [] then 0 else 17/20) := by
  have hcands := c2_candidates_eq G h
  have hmax : ((G.nodes.length : ℚ) ⊔ 1) = (G.nodes.length : ℚ) :=
    max_eq_left (by exact_mod_cast (by omega : 1 ≤ G.nodes.length))
  have hshape := detect_botnet_shape G h
  refine ⟨?_, ?_, hshape.1, hshape.2⟩
  · intro n
    rw [hcands]
    unfold c2Candidates
    constructor
    · rintro ⟨r, hr, hid⟩
      rcases List.mem_filterMap.mp hr with ⟨p, hp, hf⟩
      by_cases hcond : c2CandidateCond G p.1
      · rw [if_pos hcond] at hf
        have hre := Option.some.inj hf
        have hdev : r.device_id = p.1 := by rw [← hre]
        rw [hdev] at hid
        subst hid
        refine ⟨⟨p.2, ?_⟩, (c2CandidateCond_iff G p.1).mp hcond⟩
        have hpe : (p.1, p.2) = p := rfl
        rw [hpe]
        exact hp
      · rw [if_neg hcond] at hf
        cases hf
    · rintro ⟨⟨a, ha⟩, hc⟩
      have hcond : c2CandidateCond G n := (c2CandidateCond_iff G n).mpr hc
      refine ⟨⟨n, G.outDegree n, G.inDegree n,
        pyRound 3 ((G.outDegree n : ℚ) / (max G.nodes.length 1 : ℚ))⟩, ?_, rfl⟩
      apply List.mem_filterMap.mpr
      refine ⟨(n, a), ha, ?_⟩
      rw [if_pos hcond]
  · intro r hr
    rw [hcands] at hr
    unfold c2Candidates at hr
    rcases List.mem_filterMap.mp hr with ⟨p, hp, hf⟩
    by_cases hcond : c2CandidateCond G p.1
    · rw [if_pos hcond] at hf
      have hre := Option.some.inj hf
      rw [← hre]
      refine ⟨rfl, rfl, ?_⟩
      show pyRound 3 ((G.outDegree p.1 : ℚ) / ((G.nodes.length : ℚ) ⊔ 1))
          = pyRound 3 ((G.outDegree p.1 : ℚ) / (G.nodes.length : ℚ))
      rw [hmax]
    · rw [if_neg hcond] at hf
      cases hf

/-- C2 counterexample: on a built graph of 14 nodes where node `a` has
out-degree 3 and in-degree 0, the code reports `a` as a C2 candidate
(threshold `max(3, int(0.25·14)) = 3`), while the claim's threshold
`max(3, round(0.25·14)) = 4` rejects it; moreover the reported c2_score is
the 3-decimal rounding `0.214`, not `3/14`. -/
theorem C2_counterexample :
    (∃ r ∈ (detect_botnet_patterns G14).1.c2_candidates, r.device_id = "a")
    ∧ ¬ spec_c2_candidate G14 "a"
    ∧ ((detect_botnet_patterns G14).1.c2_candidates.map (fun c => c.c2_score)) = [107/500]
    ∧ (107/500 : ℚ) ≠ (G14.outDegree "a" : ℚ) / (G14.nodes.length : ℚ) := by decide

/-- C2 witness: the 6-node star graph with hub `h`. -/
theorem C2_botnet_witness :
    4 ≤ Gstar.nodes.length
    ∧ ((∃ r ∈ (detect_botnet_patterns Gstar).1.c2_candidates, r.device_id = "h") ↔
        ((∃ a, ("h", a) ∈ Gstar.nodes) ∧ 3 ≤ Gstar.outDegree "h"
          ∧ Gstar.nodes.length / 4 ≤ Gstar.outDegree "h"
          ∧ 2 < (Gstar.outDegree "h" : ℚ) / ((Gstar.inDegree "h" : ℚ) + 1))) :=
  ⟨by decide, (C2_botnet_characterization Gstar (by decide)).1 "h"⟩

/-- With at least two anomalous nodes and a nonempty deduplicated path
list, the lateral-movement result and mutated graph are exactly the
reported/relabelled first-20 shape. -/
theorem detect_lateral_eq (G : Graph) (h2 : ¬ (anomalousNodes G).length < 2)
    (hne : (uniqPaths G).isEmpty = false) :
    detect_lateral_movement G =
      (⟨true, ((uniqPaths G).take 20).map mkPathRecord,
        some (pyMaxByCount ((uniqPaths G).map (fun p => p.headI))),
        dedupSortStrings ((uniqPaths G).flatMap id)⟩,
       ((uniqPaths G).take 20).foldl relabelPath G) := by
  simp only [detect_lateral_movement]
  rw [if_neg h2]
  simp only [hne, Bool.false_eq_true, if_false]

/-- C10: at most 20 attack paths are reported — exactly the first 20
deduplicated qualifying paths, whose traversed edges (and only those) are
relabelled — while the entry point and the compromised set are computed
over all deduplicated qualifying paths. -/
theorem C10_cap20 (G : Graph)
    (h2 : 2 ≤ (anomalousNodes G).length) (hne : uniqPaths G ≠ []) :
    (detect_lateral_movement G).1.attack_paths.length ≤ 20
    ∧ (detect_lateral_movement G).1.attack_paths = ((uniqPaths G).take 20).map mkPathRecord
    ∧ (detect_lateral_movement G).1.entry_point
        = some (pyMaxByCount ((uniqPaths G).map (fun p => p.headI)))
    ∧ (detect_lateral_movement G).1.compromised_devices
        = dedupSortStrings ((uniqPaths G).flatMap id)
    ∧ (∀ k : String × String, k ∉ traversedPairs ((uniqPaths G).take 20) →
        (detect_lateral_movement G).2.findEdge k = G.findEdge k)
    ∧ (∀ (k : String × String) (a : EdgeAttrs),
        k ∈ traversedPairs ((uniqPaths G).take 20) → G.findEdge k = some a →
        (detect_lateral_movement G).2.findEdge k = some { a with etype := "lateral" }) := by
  have hd := detect_lateral_eq G (by omega) (by
    cases hE : (uniqPaths G).isEmpty
    · rfl
    · exact absurd (List.isEmpty_iff.mp hE) hne)
  rw [hd]
  refine ⟨?_, rfl, rfl, rfl, ?_, ?_⟩
  · simp only [List.length_map, List.length_take]
    exact min_le_left _ _
  · intro k hk
    exact findEdge_relabelPaths_notMem _ _ _ hk
  · intro k a hk ha
    exact findEdge_relabelPaths_mem _ _ _ _ hk ha

/-- C10 witness: the two-node anomalous chain. -/
theorem C10_cap20_witness :
    2 ≤ (anomalousNodes GC10).length ∧ uniqPaths GC10 ≠ []
    ∧ (detect_lateral_movement GC10).1.attack_paths.length ≤ 20 :=
  ⟨by decide, by decide, (C10_cap20 GC10 (by decide) (by decide)).1⟩

/-- C4 counterexample: on a built graph with 21 deduplicated qualifying
paths, the 21st kept path `[u, z]` exists but its edge keeps type
`"explicit"` after detection — only the first 20 paths are relabelled. -/
theorem C4_counterexample :
    ["u", "z"] ∈ uniqPaths G21
    ∧ ("u", "z") ∈ consecPairs ["u", "z"]
    ∧ ((detect_lateral_movement G21).2.findEdge ("u", "z")).map (fun a => a.etype)
        = some "explicit" := by decide

/-- C4 (amended): whenever the detector keeps at least one qualifying
deduplicated path, every existing edge traversed by any of the first 20
kept paths has its type overwritten to `"lateral"` after detection,
including edges previously set to `"c2"` by the botnet detector; kept
paths beyond the first 20 are not relabelled. -/
theorem C4_relabel_first20 (G : Graph) (k : String × String) (a : EdgeAttrs)
    (h2 : 2 ≤ (anomalousNodes G).length)
    (hk : k ∈ traversedPairs ((uniqPaths G).take 20))
    (ha : G.findEdge k = some a) :
    (detect_lateral_movement G).2.findEdge k = some { a with etype := "lateral" } := by
  have hne : uniqPaths G ≠ [] := by
    intro hnil
    rw [hnil] at hk
    simp [traversedPairs] at hk
  have hd := detect_lateral_eq G (by omega) (by
    cases hE : (uniqPaths G).isEmpty
    · rfl
    · exact absurd (List.isEmpty_iff.mp hE) hne)
  rw [hd]
  exact findEdge_relabelPaths_mem _ _ _ _ hk ha

/-- C4 witness: the star graph after botnet detection — the edge `(h, a)`
carries type `"c2"` and is overwritten to `"lateral"`. -/
theorem C4_relabel_witness :
    2 ≤ (anomalousNodes Gw4).length
    ∧ ("h", "a") ∈ traversedPairs ((uniqPaths Gw4).take 20)
    ∧ Gw4.findEdge ("h", "a") = some ⟨1, 1, 0, 0, 0, "c2"⟩
    ∧ (detect_lateral_movement Gw4).2.findEdge ("h", "a")
        = some ⟨1, 1, 0, 0, 0, "lateral"⟩ :=
  ⟨by decide, by decide, by decide,
    C4_relabel_first20 Gw4 ("h", "a") ⟨1, 1, 0, 0, 0, "c2"⟩ (by decide) (by decide) (by decide)⟩

/-- C9: feeding the same explicit event once versus twice (fresh analyzer
state): both builds leave exactly one edge object for the ordered pair; the
double feed has `count = 2` and doubled packet/KB sums relative to the
single feed's `count = 1`. -/
theorem C9_double_feed (e : Event) (d : String) (now : ℤ)
    (hct : e.comm_target = some d)
    (hs : pyStrip e.device_id ≠ "")
    (hd : pyStrip d ≠ "")
    (hne : pyStrip e.device_id ≠ pyStrip d) :
    (build_communication_graph cfgDefault [] now [e]).1.edges
      = [((pyStrip e.device_id, pyStrip d),
          ⟨1, 1, pyInt e.packet_rate, pyInt e.network_out_kb, e.timestamp.getD now, "explicit"⟩)]
    ∧ (build_communication_graph cfgDefault [] now [e, e]).1.edges
      = [((pyStrip e.device_id, pyStrip d),
          ⟨1, 2, 2 * pyInt e.packet_rate, 2 * pyInt e.network_out_kb,
            e.timestamp.getD now, "explicit"⟩)] := by
  constructor
  · simp [build_communication_graph, explicitPass, explicitStep, inferencePass, inferOuter,
      inferInner, inferPair, sortByTs, insertByTs, addOrUpdateEdge, upsertNode,
      Graph.empty, Graph.findNode, Graph.findEdge, Graph.hasNode, Graph.hasEdge, lookupKey,
      setKey, cfgDefault, hct, hs, hd, hne, two_mul, max_self,
      (by norm_num : ¬ (30:ℤ) < 0)]
  · simp [build_communication_graph, explicitPass, explicitStep, inferencePass, inferOuter,
      inferInner, inferPair, sortByTs, insertByTs, addOrUpdateEdge, upsertNode,
      Graph.empty, Graph.findNode, Graph.findEdge, Graph.hasNode, Graph.hasEdge, lookupKey,
      setKey, cfgDefault, hct, hs, hd, hne, two_mul, max_self,
      (by norm_num : ¬ (30:ℤ) < 0)]

/-- C9 witness: a concrete explicit event fed once and twice. -/
theorem C9_double_feed_witness :
    eC9.comm_target = some "q"
    ∧ pyStrip eC9.device_id ≠ ""
    ∧ pyStrip "q" ≠ ""
    ∧ pyStrip eC9.device_id ≠ pyStrip "q"
    ∧ (build_communication_graph cfgDefault [] 0 [eC9, eC9]).1.edges
      = [((pyStrip eC9.device_id, pyStrip "q"),
          ⟨1, 2, 2 * pyInt eC9.packet_rate, 2 * pyInt eC9.network_out_kb,
            eC9.timestamp.getD 0, "explicit"⟩)] :=
  ⟨by decide, by decide, by decide, by decide,
    (C9_double_feed eC9 "q" 0 (by decide) (by decide) (by decide) (by decide)).2⟩
